import Mathlib

/-
Verification of the Fitness-Tracker core (src/Fitness.py) against its
natural-language specification.

The embedding below translates the credential subsystem (hash_password,
verify_password, the forgot-password flow), the metrics/goal storage
operations, and the analytics engine (refresh_insights and its helpers)
into executable Lean definitions.  Python floats are modelled by ℚ (all
claim-relevant computations are exact), byte strings by `List Nat` with
values < 256, SQL NULL / Python None by `Option`, and the PBKDF2-HMAC
key-derivation primitive by an explicit function parameter `kdf` (its
inner loop of 200_000 SHA-256 rounds is a cryptographic primitive whose
only properties used by the program are that it maps a password byte
string and a salt to a byte string).
-/

namespace Fitness

/-! ### Credential subsystem: base64 (Python `base64.b64encode/b64decode`) -/

/-- The standard base64 alphabet used by `base64.b64encode`. -/
def b64Alphabet : List Char :=
  "ABCDEFGHIJKLMNOPQRSTUVWXYZabcdefghijklmnopqrstuvwxyz0123456789+/".data

/-- Character for a 6-bit value (index into the alphabet). -/
def sextetToChar (s : Nat) : Char := b64Alphabet.getD s 'A'

/-- Inverse lookup: alphabet position of a character, if any. -/
def charToSextet (c : Char) : Option Nat := b64Alphabet.findIdx? (fun d => d = c)

/-- Whether a character belongs to the base64 alphabet. -/
def isB64Char (c : Char) : Bool := (charToSextet c).isSome

/-- `base64.b64encode` on a byte list (bytes are Nats < 256): groups of three
bytes become four alphabet characters; a trailing group of one or two bytes is
padded with `=`. -/
def b64encodeBytes : List Nat → List Char
  | a :: b :: c :: rest =>
      sextetToChar (a / 4) :: sextetToChar (a % 4 * 16 + b / 16) ::
      sextetToChar (b % 16 * 4 + c / 64) :: sextetToChar (c % 64) ::
      b64encodeBytes rest
  | [a, b] => [sextetToChar (a / 4), sextetToChar (a % 4 * 16 + b / 16),
               sextetToChar (b % 16 * 4), '=']
  | [a] => [sextetToChar (a / 4), sextetToChar (a % 4 * 16), '=', '=']
  | [] => []

/-- Decoding of a quad-aligned character stream, as `base64.b64decode` does
after discarding non-alphabet characters: each full quad yields three bytes;
a final quad `xy==` yields one byte and `xyz=` two; anything else (a leftover
of 1–3 characters, or padding not at the end) is a decode error (`none`,
modelling the raised `binascii.Error`). -/
def decodeQuads : List Char → Option (List Nat)
  | [] => some []
  | c0 :: c1 :: c2 :: c3 :: rest =>
    match charToSextet c0, charToSextet c1 with
    | some s0, some s1 =>
      if c2 = '=' then
        if c3 = '=' ∧ rest = [] then some [s0 * 4 + s1 / 16] else none
      else
        match charToSextet c2 with
        | some s2 =>
          if c3 = '=' then
            if rest = [] then some [s0 * 4 + s1 / 16, s1 % 16 * 16 + s2 / 4]
            else none
          else
            match charToSextet c3, decodeQuads rest with
            | some s3, some bs =>
                some ((s0 * 4 + s1 / 16) :: (s1 % 16 * 16 + s2 / 4) ::
                      (s2 % 4 * 64 + s3) :: bs)
            | _, _ => none
        | none => none
    | _, _ => none
  | _ => none

/-- `base64.b64decode` with its default `validate=False`: characters outside
the alphabet and `=` are discarded first, then the remainder is decoded in
quads. -/
def b64decode (s : String) : Option (List Nat) :=
  decodeQuads (s.data.filter (fun c => isB64Char c || c = '='))

/-! ### UTF-8 encoding (Python `str.encode('utf-8')`) -/

/-- UTF-8 encoding of a single code point, per the standard 1–4 byte scheme. -/
def utf8EncodeChar (c : Char) : List Nat :=
  let n := c.toNat
  if n < 128 then [n]
  else if n < 2048 then [192 + n / 64, 128 + n % 64]
  else if n < 65536 then [224 + n / 4096, 128 + n / 64 % 64, 128 + n % 64]
  else [240 + n / 262144, 128 + n / 4096 % 64, 128 + n / 64 % 64, 128 + n % 64]

/-- `password.encode('utf-8')` as a byte list. -/
def utf8Encode (s : String) : List Nat := (s.data.map utf8EncodeChar).flatten

/-! ### hash_password / verify_password (src/Fitness.py lines 31–50) -/

/-- SALT_BYTES = 16 (src/Fitness.py line 31). -/
def SALT_BYTES : Nat := 16

/-- The type of the key-derivation primitive `hashlib.pbkdf2_hmac`, taking the
UTF-8 password bytes and the salt bytes to the derived-key bytes (HASH_NAME
and HASH_ITERS are baked into the program's single call site). -/
def Kdf : Type := List Nat → List Nat → List Nat

/-- `secrets.compare_digest` on byte strings: equality (its constant-time
execution is a timing property outside this value-level model; unequal
lengths compare unequal, they do not raise). -/
def compare_digest (a b : List Nat) : Bool := a == b

/-- `hash_password(password, salt)` (lines 38–40): derive a key from the UTF-8
password bytes and the salt and return `base64(salt + dk)` as a string. -/
def hash_password (kdf : Kdf) (password : String) (salt : List Nat) : String :=
  String.mk (b64encodeBytes (salt ++ kdf (utf8Encode password) salt))

/-- `verify_password(stored_hash, password_attempt)` (lines 42–50): decode the
stored hash, split it at SALT_BYTES into salt and stored key, re-derive a key
from the attempt and compare.  The whole body runs under `try/except: return
False`, so a missing stored hash (`None`, modelled by `none`) or a failing
base64 decode yields `false`. -/
def verify_password (kdf : Kdf) (stored_hash : Option String)
    (password_attempt : String) : Bool :=
  match stored_hash with
  | none => false
  | some s =>
    match b64decode s with
    | none => false
    | some raw =>
      let salt := raw.take SALT_BYTES
      let stored_dk := raw.drop SALT_BYTES
      let attempt_dk := kdf (utf8Encode password_attempt) salt
      compare_digest stored_dk attempt_dk

/-! ### The forgot-password flow (FitnessApp._forgot_password, lines 340–362) -/

/-- A row of the `users` table (src/Fitness.py lines 60–70): nullable columns
are `Option`. -/
structure UserRow where
  username : String
  password_hash : String
  age : Option Int
  height_cm : Option ℚ
  weight_kg : Option ℚ
  security_q : Option String
  security_a_hash : Option String
deriving DecidableEq

/-- Python truthiness of a nullable string (`if not user['security_q']`):
`None` and the empty string are falsy. -/
def truthyStr : Option String → Bool
  | none => false
  | some s => !(s == "")

/-- `FitnessApp._forgot_password` (lines 340–362) after the username lookup
succeeded, as a pure state transformer on the user's row.  `answer` and
`newpw` are the dialog results (`none` models a cancelled dialog, which
`askstring` reports as Python `None`).  On a verified answer and a non-empty
new password, `DB.set_password` (lines 112–115) overwrites `password_hash`
with `hash_password(newpw, fresh_salt)`; every other path leaves the row
untouched. -/
def forgot_password (kdf : Kdf) (u : UserRow) (answer : Option String)
    (newpw : Option String) (freshSalt : List Nat) : UserRow :=
  if truthyStr u.security_q then
    match answer with
    | none => u
    | some a =>
      if a = "" then u
      else if verify_password kdf u.security_a_hash a then
        match newpw with
        | none => u
        | some np =>
          if np = "" then u
          else { u with password_hash := hash_password kdf np freshSalt }
      else u
  else u

/-! ### Numeric model: Python floats as ℚ, `round` as round-half-to-even

All claim-relevant computations (integer-valued sums, small decimal
literals) are exact in double precision, so the ℚ model agrees with the
Python float semantics on them. -/

/-- Python 3 `round` to an integer: nearest, ties to even. -/
def roundHalfEven (x : ℚ) : ℤ :=
  let f := ⌊x⌋
  let r := x - f
  if r < 1 / 2 then f
  else if 1 / 2 < r then f + 1
  else if f % 2 = 0 then f else f + 1

/-- Python 3 `round(x, n)` for `n ≥ 0` digits. -/
def roundQ (x : ℚ) (n : Nat) : ℚ := (roundHalfEven (x * 10 ^ n) : ℚ) / 10 ^ n

/-! ### Analytics data model and helpers (src/Fitness.py lines 162–189) -/

/-- A row of the `daily` table as selected by the analytics queries
(`SELECT date, sleep_hrs, weight, calories, steps`); `id` and `note` are
never read by the core.  All numeric columns are nullable. -/
structure DailyRow where
  date : String
  sleep_hrs : Option ℚ
  weight : Option ℚ
  calories : Option ℚ
  steps : Option Int
deriving DecidableEq

/-- A row of the `goals` table (lines 84–93), all four fields nullable. -/
structure GoalsRow where
  weight_goal : Option ℚ
  steps_goal : Option Int
  calories_goal : Option ℚ
  sleep_goal : Option ℚ
deriving DecidableEq

/-- `calc_bmi` (lines 162–168): height is in cm; a zero height raises
`ZeroDivisionError`, caught and turned into `None`. -/
def calc_bmi (weight_kg height_cm : ℚ) : Option ℚ :=
  if height_cm = 0 then none
  else some (roundQ (weight_kg / (height_cm / 100 * (height_cm / 100))) 2)

/-- `bmi_category` (lines 170–179). -/
def bmi_category (bmi : Option ℚ) : String :=
  match bmi with
  | none => "Unknown"
  | some b =>
    if b < 18.5 then "Underweight"
    else if b < 25 then "Normal"
    else if b < 30 then "Overweight"
    else "Obese"

/-- `calc_bmr` (lines 181–189), Mifflin–St Jeor; `sex` defaults to
`'male'` and the single call site (line 666) never passes it. -/
def calc_bmr (weight height_cm : ℚ) (age : Int) (sex : String := "male") :
    Option ℚ :=
  if sex = "male" then
    some (roundQ (10 * weight + 6.25 * height_cm - 5 * age + 5) 1)
  else
    some (roundQ (10 * weight + 6.25 * height_cm - 5 * age - 161) 1)

/-- `numeric_avg` (lines 610–612): average of the non-null samples, `None`
when there are none. -/
def numeric_avg (arr : List (Option ℚ)) : Option ℚ :=
  let s := arr.filterMap id
  if s = [] then none else some (s.sum / s.length)

/-- Python truthiness of a nullable number (`if avg_sleep:`): `None` and
zero are falsy. -/
def truthyQ : Option ℚ → Bool
  | none => false
  | some v => !(v == 0)

/-! ### The insight lines of `refresh_insights` (lines 602–671)

The source appends formatted strings to a text widget; the embedding
records each appended line as a constructor carrying the computed values
the claims speak about (display formatting is not modelled). -/

inductive Insight where
  | noData
  | header (days : Nat)
  | avgSleep (v : ℚ)
  | avgWeight (v : ℚ)
  | avgCalories (v : ℚ)
  | avgSteps (v : ℚ)
  | weightVsGoal (avg : ℚ) (diff : ℚ)
  | stepsGoalPct (pct : ℚ)
  | caloriesGoalPct (pct : ℚ)
  | sleepGoalPct (pct : ℚ)
  | weightTrend (slope : ℚ) (direction : String)
  | bmiLine (bmi : Option ℚ) (category : String)
  | bmrLine (bmr : Option ℚ)
deriving DecidableEq

/-- An average line `if avg_x: text.append(...)` (lines 625–628): emitted
only when the average is truthy (non-`None` and non-zero). -/
def optLine (o : Option ℚ) (mk : ℚ → Insight) : List Insight :=
  match o with
  | none => []
  | some v => if v = 0 then [] else [mk v]

/-- The weight-vs-goal line (lines 633–635): signed difference `avg − goal`,
gated by truthiness of both. -/
def weightGoalLine (goal avg : Option ℚ) : List Insight :=
  match goal, avg with
  | some gv, some av =>
    if gv = 0 then [] else if av = 0 then []
    else [Insight.weightVsGoal av (av - gv)]
  | _, _ => []

/-- A percentage goal line (lines 636–647): `avg/goal*100`, gated by
truthiness of both goal and average. -/
def goalPctLine (goal avg : Option ℚ) (mk : ℚ → Insight) : List Insight :=
  match goal, avg with
  | some gv, some av =>
    if gv = 0 then [] else if av = 0 then []
    else [mk (av / gv * 100)]
  | _, _ => []

/-- The goal-progress block (lines 631–647): nothing when no goals row. -/
def goalLines (g : Option GoalsRow)
    (avg_sleep avg_weight avg_cal avg_steps : Option ℚ) : List Insight :=
  match g with
  | none => []
  | some grow =>
    weightGoalLine grow.weight_goal avg_weight ++
    goalPctLine (grow.steps_goal.map (fun n : Int => (n : ℚ))) avg_steps
      Insight.stepsGoalPct ++
    goalPctLine grow.calories_goal avg_cal Insight.caloriesGoalPct ++
    goalPctLine grow.sleep_goal avg_sleep Insight.sleepGoalPct

/-- `xs = list(range(len(ws)))` at line 652, as rationals. -/
def olsXs (k : Nat) : List ℚ := (List.range k).map (fun i : Nat => (i : ℚ))

/-- `mean_x = sum(xs)/len(xs)` (line 653). -/
def olsMeanX (k : Nat) : ℚ := (olsXs k).sum / (olsXs k).length

/-- `mean_y = sum(ws)/len(ws)` (line 654). -/
def olsMeanY (ws : List ℚ) : ℚ := ws.sum / ws.length

/-- The slope numerator (line 655). -/
def olsNum (ws : List ℚ) : ℚ :=
  (((olsXs ws.length).zip ws).map
    (fun p => (p.1 - olsMeanX ws.length) * (p.2 - olsMeanY ws))).sum

/-- The slope denominator (line 656). -/
def olsDen (ws : List ℚ) : ℚ :=
  ((olsXs ws.length).map (fun xi => (xi - olsMeanX ws.length) ^ 2)).sum

/-- `slope = num/den if den else 0` (line 657): the least-squares slope of
the non-null weights `ws` against indices `0..k-1`. -/
def olsSlope (ws : List ℚ) : ℚ :=
  if olsDen ws = 0 then 0 else olsNum ws / olsDen ws

/-- The classification at line 658. -/
def trendLabel (slope : ℚ) : String :=
  if slope < 0 then "losing" else if slope > 0 then "gaining" else "stable"

/-- The weight-trend block (lines 649–660): emitted only when at least 3
non-null weight samples exist. -/
def trendLines (weights : List (Option ℚ)) : List Insight :=
  let ws := weights.filterMap id
  if 3 ≤ ws.length then
    [Insight.weightTrend (olsSlope ws) (trendLabel (olsSlope ws))]
  else []

/-- The BMI/BMR block (lines 662–668): gated by
`if u and u['height_cm'] and u['weight_kg'] and u['age']` — the user row
must exist and all three profile fields must be truthy (non-null and
non-zero). -/
def bodyLines (u : Option UserRow) : List Insight :=
  match u with
  | none => []
  | some urow =>
    match urow.height_cm, urow.weight_kg, urow.age with
    | some h, some w, some a =>
      if h = 0 then [] else if w = 0 then [] else if a = 0 then []
      else
        [Insight.bmiLine (calc_bmi w h) (bmi_category (calc_bmi w h)),
         Insight.bmrLine (calc_bmr w h a)]
    | _, _, _ => []

/-- `FitnessApp.refresh_insights` (lines 602–671) as a pure function of the
queried rows (most recent 30, ascending), the goals row and the user row:
the ordered list of insight lines it writes. -/
def refresh_insights (rows : List DailyRow) (g : Option GoalsRow)
    (u : Option UserRow) : List Insight :=
  if rows = [] then [Insight.noData]
  else
    let avg_sleep := numeric_avg (rows.map (fun r => r.sleep_hrs))
    let avg_weight := numeric_avg (rows.map (fun r => r.weight))
    let avg_cal := numeric_avg (rows.map (fun r => r.calories))
    let avg_steps :=
      numeric_avg (rows.map (fun r => r.steps.map (fun n : Int => (n : ℚ))))
    Insight.header rows.length ::
      (optLine avg_sleep Insight.avgSleep ++
       optLine avg_weight Insight.avgWeight ++
       optLine avg_cal Insight.avgCalories ++
       optLine avg_steps Insight.avgSteps ++
       goalLines g avg_sleep avg_weight avg_cal avg_steps ++
       trendLines (rows.map (fun r => r.weight)) ++
       bodyLines u)

/-- The metrics of a daily record, for claims quantified over metrics. -/
inductive Metric where
  | sleep
  | weight
  | calories
  | steps
deriving DecidableEq

/-- The (ℚ-cast) value a metric takes on a row, as read at lines 614–617. -/
def metricValue : Metric → DailyRow → Option ℚ
  | Metric.sleep, r => r.sleep_hrs
  | Metric.weight, r => r.weight
  | Metric.calories, r => r.calories
  | Metric.steps, r => r.steps.map (fun n : Int => (n : ℚ))

/-- The average line constructor belonging to a metric. -/
def avgLineOf : Metric → ℚ → Insight
  | Metric.sleep => Insight.avgSleep
  | Metric.weight => Insight.avgWeight
  | Metric.calories => Insight.avgCalories
  | Metric.steps => Insight.avgSteps

/-! ### Quick-entry parsing (FitnessApp.add_entry, lines 494–523)

Python's `float()` / `int()` on stripped decimal literals (with the
underscore-separator rule); the non-finite literals `inf`/`nan`, which are
not rationals, are outside the model. -/

/-- Numeric value of a list of decimal digit characters. -/
def natOfDigits (ds : List Char) : Nat :=
  ds.foldl (fun n c => n * 10 + (c.toNat - 48)) 0

/-- Continue a digit run after at least one digit was read: a single
underscore may sit between two digits (Python's literal rule); the
remainder starts at the first character that cannot extend the run. -/
def digitsCore : List Char → List Char × List Char
  | '_' :: c :: rest =>
    if c.isDigit then
      let p := digitsCore rest
      (c :: p.1, p.2)
    else ([], '_' :: c :: rest)
  | c :: rest =>
    if c.isDigit then
      let p := digitsCore rest
      (c :: p.1, p.2)
    else ([], c :: rest)
  | [] => ([], [])

/-- A non-empty digit run (with embedded single underscores); `none` if the
input does not start with a digit. -/
def parseDigits : List Char → Option (List Char × List Char)
  | c :: rest =>
    if c.isDigit then
      let p := digitsCore rest
      some (c :: p.1, p.2)
    else none
  | [] => none

/-- An optional leading sign; `true` means negative. -/
def parseSign : List Char → Bool × List Char
  | '+' :: rest => (false, rest)
  | '-' :: rest => (true, rest)
  | cs => (false, cs)

/-- The exponent tail of a float literal: empty means exponent 0; otherwise
`e`/`E`, an optional sign and digits, which must consume the rest. -/
def parseExpPart : List Char → Option Int
  | [] => some 0
  | c :: rest =>
    if c = 'e' ∨ c = 'E' then
      let p := parseSign rest
      match parseDigits p.2 with
      | some (ds, r3) =>
        if r3 = [] then
          some (if p.1 then -(natOfDigits ds : Int) else (natOfDigits ds : Int))
        else none
      | none => none
    else none

/-- Whitespace stripped by Python's `float()`/`int()`. -/
def isPySpace (c : Char) : Bool :=
  c = ' ' ∨ c = '\t' ∨ c = '\n' ∨ c = '\r' ∨ c = '\x0b' ∨ c = '\x0c'

/-- Strip leading and trailing whitespace. -/
def stripChars (cs : List Char) : List Char :=
  ((cs.dropWhile isPySpace).reverse.dropWhile isPySpace).reverse

/-- Python `float(s)` on a finite decimal literal: optional sign, then
`digits [. digits?] | . digits`, then an optional exponent; anything else
raises `ValueError`, modelled as `none`. -/
def pyFloat (s : String) : Option ℚ :=
  let cs := stripChars s.data
  let sgn := parseSign cs
  let core : Option (List Char × List Char × List Char) :=
    match parseDigits sgn.2 with
    | some (ds, r) =>
      match r with
      | '.' :: r2 =>
        match parseDigits r2 with
        | some (fs, r3) => some (ds, fs, r3)
        | none => some (ds, [], r2)
      | _ => some (ds, [], r)
    | none =>
      match sgn.2 with
      | '.' :: r2 =>
        match parseDigits r2 with
        | some (fs, r3) => some ([], fs, r3)
        | none => none
      | _ => none
  match core with
  | none => none
  | some (ds, fs, rest) =>
    match parseExpPart rest with
    | none => none
    | some e =>
      let mag : ℚ := (natOfDigits (ds ++ fs) : ℚ) / 10 ^ fs.length * 10 ^ e
      some (if sgn.1 then -mag else mag)

/-- Python `int(s)` on a decimal literal: optional sign and digits only. -/
def pyInt (s : String) : Option Int :=
  let cs := stripChars s.data
  let sgn := parseSign cs
  match parseDigits sgn.2 with
  | some (ds, r) =>
    if r = [] then
      some (if sgn.1 then -(natOfDigits ds : Int) else (natOfDigits ds : Int))
    else none
  | none => none

/-- `datetime.date.fromisoformat` validation (line 497): exactly
`YYYY-MM-DD` with a real calendar date (year ≥ 1, Gregorian leap rule). -/
def isLeapYear (y : Nat) : Bool :=
  y % 4 = 0 ∧ (y % 100 ≠ 0 ∨ y % 400 = 0)

/-- Days in a month of the proleptic Gregorian calendar. -/
def daysInMonth (y m : Nat) : Nat :=
  if m = 2 then (if isLeapYear y then 29 else 28)
  else if m = 4 ∨ m = 6 ∨ m = 9 ∨ m = 11 then 30
  else 31

/-- Whether a string is a valid `YYYY-MM-DD` ISO date. -/
def isoDateValid (s : String) : Bool :=
  match s.data with
  | [y1, y2, y3, y4, c1, m1, m2, c2, d1, d2] =>
    y1.isDigit && y2.isDigit && y3.isDigit && y4.isDigit &&
    m1.isDigit && m2.isDigit && d1.isDigit && d2.isDigit &&
    c1 = '-' && c2 = '-' &&
    (let y := natOfDigits [y1, y2, y3, y4]
     let m := natOfDigits [m1, m2]
     let d := natOfDigits [d1, d2]
     1 ≤ y && 1 ≤ m && m ≤ 12 && 1 ≤ d && d ≤ daysInMonth y m)
  | _ => false

/-- The five entry widgets read by `add_entry` (empty string = field left
blank). -/
structure EntryInput where
  date : String
  sleep : String
  weight : String
  calories : String
  steps : String

/-- A float field of `add_entry` (lines 502–513): the widget text, empty
replaced by the integer 0 (`self.entry_x.get() or 0`), passed to `float`;
a `ValueError` is caught and turns the field into `None`. -/
def parseFloatField (s : String) : Option ℚ :=
  if s = "" then some 0 else pyFloat s

/-- The steps field (lines 514–517), identical but via `int`. -/
def parseIntField (s : String) : Option Int :=
  if s = "" then some 0 else pyInt s

/-- `FitnessApp.add_entry` (lines 494–519): reject an invalid date
(`none`, the early `return` after the error dialog), otherwise build the
row handed to `DB.add_daily`. -/
def add_entry (inp : EntryInput) : Option DailyRow :=
  if isoDateValid inp.date then
    some { date := inp.date,
           sleep_hrs := parseFloatField inp.sleep,
           weight := parseFloatField inp.weight,
           calories := parseFloatField inp.calories,
           steps := parseIntField inp.steps }
  else none

/-! ### The goals table (DB.upsert_goals / DB.get_goals, lines 145–159) -/

/-- The `goals` table: username is its PRIMARY KEY, so an association list
with at most one entry per name models it; `upsert_goals` keys every
statement on the username. -/
def upsert_goals (tbl : List (String × GoalsRow)) (username : String)
    (weight_goal : Option ℚ) (steps_goal : Option Int)
    (calories_goal : Option ℚ) (sleep_goal : Option ℚ) :
    List (String × GoalsRow) :=
  if tbl.any (fun p => p.1 = username) then
    tbl.map (fun p =>
      if p.1 = username then
        (p.1, ⟨weight_goal, steps_goal, calories_goal, sleep_goal⟩)
      else p)
  else tbl ++ [(username, ⟨weight_goal, steps_goal, calories_goal, sleep_goal⟩)]

/-- `DB.get_goals` (lines 156–159): the user's goals row, if any. -/
def get_goals (tbl : List (String × GoalsRow)) (username : String) :
    Option GoalsRow :=
  (tbl.find? (fun p => p.1 = username)).map (fun p => p.2)

/-! ### Concrete data for witnesses and counterexamples -/

/-- A concrete key-derivation function for witnesses: pad/truncate the
password bytes to a 32-byte key. -/
def kdfW : Kdf := fun pw _ => (pw ++ List.replicate 32 0).take 32

/-- A concrete 16-byte salt for witnesses. -/
def saltW : List Nat := List.replicate 16 0

/-- A concrete user row for the C3 witness: security question set, stored
answer hash an undecodable string (so any answer fails verification). -/
def userW : UserRow :=
  { username := "u", password_hash := "ph", age := none, height_cm := none,
    weight_kg := none, security_q := some "pet name?",
    security_a_hash := some "abc" }

/-- Whether an insight list contains a BMI line. -/
def hasBMILine (l : List Insight) : Bool :=
  l.any (fun i => match i with | Insight.bmiLine _ _ => true | _ => false)

/-- One daily record (sleep only), enough for insights to run. -/
def rowsC4 : List DailyRow :=
  [{ date := "2025-01-01", sleep_hrs := some 7, weight := none,
     calories := none, steps := none }]

/-- C4 counterexample profile: weight and height present, age missing. -/
def userC4 : UserRow :=
  { username := "u", password_hash := "ph", age := none,
    height_cm := some 175, weight_kg := some 70, security_q := none,
    security_a_hash := none }

/-- C4 witness profile: weight, height and age all present. -/
def userC4full : UserRow :=
  { username := "u", password_hash := "ph", age := some 30,
    height_cm := some 175, weight_kg := some 70, security_q := none,
    security_a_hash := none }

/-- Three records with weights 70, 69, 68 (trend example). -/
def rowsC5 : List DailyRow :=
  [{ date := "2025-01-01", sleep_hrs := none, weight := some 70,
     calories := none, steps := none },
   { date := "2025-01-02", sleep_hrs := none, weight := some 69,
     calories := none, steps := none },
   { date := "2025-01-03", sleep_hrs := none, weight := some 68,
     calories := none, steps := none }]

/-- One record with 8000 steps (goal-attainment example). -/
def rowsC6 : List DailyRow :=
  [{ date := "2025-01-01", sleep_hrs := none, weight := none,
     calories := none, steps := some 8000 }]

/-- A goals row with a 10000-step goal. -/
def goalsC6 : GoalsRow :=
  { weight_goal := none, steps_goal := some 10000, calories_goal := none,
    sleep_goal := none }

/-- Two records whose step counts are 0 and `None`: a non-null sample
exists and the steps average is exactly 0. -/
def rowsC10 : List DailyRow :=
  [{ date := "2025-01-01", sleep_hrs := some 7, weight := none,
     calories := none, steps := some 0 },
   { date := "2025-01-02", sleep_hrs := some 8, weight := none,
     calories := none, steps := none }]

/-! ## Theorems

First the base64 round-trip, then the claims C1–C10 in order, each as a
single theorem (with its witness or counterexample). -/

theorem charToSextet_sextetToChar :
    ∀ s : Nat, s < 64 → charToSextet (sextetToChar s) = some s := by decide

theorem sextetToChar_ne_pad :
    ∀ s : Nat, s < 64 → sextetToChar s ≠ '=' := by decide

theorem b64pred_sextetToChar :
    ∀ s : Nat, s < 64 →
      (isB64Char (sextetToChar s) || decide (sextetToChar s = '=')) = true := by
  decide

theorem b64pred_pad : (isB64Char '=' || decide (('=' : Char) = '=')) = true := by
  decide

theorem b64encode_chars_valid (bs : List Nat) (h : ∀ b ∈ bs, b < 256) :
    ∀ c ∈ b64encodeBytes bs, (isB64Char c || decide (c = '=')) = true := by
  induction bs using b64encodeBytes.induct with
  | case1 a b c rest ih =>
    have ha : a < 256 := h a (by simp)
    have hb : b < 256 := h b (by simp)
    have hc : c < 256 := h c (by simp)
    intro x hx
    simp only [b64encodeBytes, List.mem_cons] at hx
    rcases hx with rfl | rfl | rfl | rfl | hx
    · exact b64pred_sextetToChar _ (by omega)
    · exact b64pred_sextetToChar _ (by omega)
    · exact b64pred_sextetToChar _ (by omega)
    · exact b64pred_sextetToChar _ (by omega)
    · exact ih (fun y hy => h y (by simp [hy])) x hx
  | case2 a b =>
    have ha : a < 256 := h a (by simp)
    have hb : b < 256 := h b (by simp)
    intro x hx
    simp only [b64encodeBytes, List.mem_cons] at hx
    rcases hx with rfl | rfl | rfl | rfl | hx
    · exact b64pred_sextetToChar _ (by omega)
    · exact b64pred_sextetToChar _ (by omega)
    · exact b64pred_sextetToChar _ (by omega)
    · exact b64pred_pad
    · simp at hx
  | case3 a =>
    have ha : a < 256 := h a (by simp)
    intro x hx
    simp only [b64encodeBytes, List.mem_cons] at hx
    rcases hx with rfl | rfl | rfl | rfl | hx
    · exact b64pred_sextetToChar _ (by omega)
    · exact b64pred_sextetToChar _ (by omega)
    · exact b64pred_pad
    · exact b64pred_pad
    · simp at hx
  | case4 =>
    intro x hx
    simp only [b64encodeBytes] at hx
    exact absurd hx (List.not_mem_nil x)

theorem decodeQuads_encode (bs : List Nat) (h : ∀ b ∈ bs, b < 256) :
    decodeQuads (b64encodeBytes bs) = some bs := by
  induction bs using b64encodeBytes.induct with
  | case1 a b c rest ih =>
    have ha : a < 256 := h a (by simp)
    have hb : b < 256 := h b (by simp)
    have hc : c < 256 := h c (by simp)
    have h0 := charToSextet_sextetToChar (a / 4) (by omega)
    have h1 := charToSextet_sextetToChar (a % 4 * 16 + b / 16) (by omega)
    have h2 := charToSextet_sextetToChar (b % 16 * 4 + c / 64) (by omega)
    have h3 := charToSextet_sextetToChar (c % 64) (by omega)
    have hne2 := sextetToChar_ne_pad (b % 16 * 4 + c / 64) (by omega)
    have hne3 := sextetToChar_ne_pad (c % 64) (by omega)
    have hrest := ih (fun y hy => h y (by simp [hy]))
    have e0 : a / 4 * 4 + (a % 4 * 16 + b / 16) / 16 = a := by omega
    have e1 : (a % 4 * 16 + b / 16) % 16 * 16 + (b % 16 * 4 + c / 64) / 4 = b := by
      omega
    have e2 : (b % 16 * 4 + c / 64) % 4 * 64 + c % 64 = c := by omega
    simp only [b64encodeBytes, decodeQuads, h0, h1, h2, h3, hrest,
      if_neg hne2, if_neg hne3, e0, e1, e2]
  | case2 a b =>
    have ha : a < 256 := h a (by simp)
    have hb : b < 256 := h b (by simp)
    have h0 := charToSextet_sextetToChar (a / 4) (by omega)
    have h1 := charToSextet_sextetToChar (a % 4 * 16 + b / 16) (by omega)
    have h2 := charToSextet_sextetToChar (b % 16 * 4) (by omega)
    have hne2 := sextetToChar_ne_pad (b % 16 * 4) (by omega)
    have e0 : a / 4 * 4 + (a % 4 * 16 + b / 16) / 16 = a := by omega
    have e1 : (a % 4 * 16 + b / 16) % 16 * 16 + b % 16 * 4 / 4 = b := by omega
    simp only [b64encodeBytes, decodeQuads, h0, h1, h2, if_neg hne2, e0, e1]
    simp
  | case3 a =>
    have ha : a < 256 := h a (by simp)
    have h0 := charToSextet_sextetToChar (a / 4) (by omega)
    have h1 := charToSextet_sextetToChar (a % 4 * 16) (by omega)
    have e0 : a / 4 * 4 + a % 4 * 16 / 16 = a := by omega
    simp only [b64encodeBytes, decodeQuads, h0, h1, e0]
    simp
  | case4 => simp only [b64encodeBytes, decodeQuads]

theorem b64decode_b64encode (bs : List Nat) (h : ∀ b ∈ bs, b < 256) :
    b64decode (String.mk (b64encodeBytes bs)) = some bs := by
  have hfilter :
      (b64encodeBytes bs).filter (fun c => isB64Char c || c = '=') =
        b64encodeBytes bs :=
    List.filter_eq_self.mpr (b64encode_chars_valid bs h)
  unfold b64decode
  rw [show (String.mk (b64encodeBytes bs)).data = b64encodeBytes bs from rfl,
    hfilter]
  exact decodeQuads_encode bs h

/-- C1: after `create` (line 325) or a successful `resetPassword` (line 358)
stores `hash_password(password, salt)` for a fresh 16-byte salt,
`verify_password` on the stored hash returns `true` for that exact password,
and `false` for any other string (including the empty string) whose derived
key differs from the stored one.  The side conditions are exactly the
guarantees of `make_salt` and `pbkdf2_hmac`: a 16-byte salt and byte-valued
derived keys; the distinctness hypothesis is the collision-freeness of the
KDF at these two inputs, which is the cryptographic idealization the claim
rests on (a 200_000-round PBKDF2-HMAC-SHA256 collision is the only way two
distinct passwords could verify against one stored hash). -/
theorem verify_after_create_correct (kdf : Kdf) (salt : List Nat) (p q : String)
    (hlen : salt.length = SALT_BYTES)
    (hsalt : ∀ b ∈ salt, b < 256)
    (hdk : ∀ b ∈ kdf (utf8Encode p) salt, b < 256) :
    verify_password kdf (some (hash_password kdf p salt)) p = true ∧
    (kdf (utf8Encode q) salt ≠ kdf (utf8Encode p) salt →
      verify_password kdf (some (hash_password kdf p salt)) q = false) := by
  have hall : ∀ b ∈ salt ++ kdf (utf8Encode p) salt, b < 256 := by
    intro b hb
    rcases List.mem_append.mp hb with h1 | h2
    · exact hsalt b h1
    · exact hdk b h2
  have hdec : b64decode (hash_password kdf p salt) =
      some (salt ++ kdf (utf8Encode p) salt) := b64decode_b64encode _ hall
  have htake : (salt ++ kdf (utf8Encode p) salt).take SALT_BYTES = salt := by
    rw [← hlen]; exact List.take_left ..
  have hdrop : (salt ++ kdf (utf8Encode p) salt).drop SALT_BYTES =
      kdf (utf8Encode p) salt := by
    rw [← hlen]; exact List.drop_left ..
  constructor
  · simp only [verify_password, hdec, htake, hdrop, compare_digest]
    exact beq_self_eq_true _
  · intro hne
    simp only [verify_password, hdec, htake, hdrop, compare_digest]
    exact beq_eq_false_iff_ne.mpr (fun hcontra => hne hcontra.symm)

theorem verify_after_create_correct_witness :
    verify_password kdfW (some (hash_password kdfW "a" saltW)) "a" = true ∧
    verify_password kdfW (some (hash_password kdfW "a" saltW)) "" = false := by
  have h := verify_after_create_correct kdfW saltW "a" ""
    (by decide) (by decide) (by decide)
  exact ⟨h.1, h.2 (by decide)⟩

/-- C7: `verify_password` is a total boolean function (its Lean type is
`Option String → String → Bool`), and every decode failure — a missing
(`None`) stored hash, or a stored string whose base64 decode errors
(corrupt, truncated to a quad remainder of 1–3 characters, padding out of
place) — yields `false`, never an exception, mirroring the
`try/except: return False` at lines 42–50. -/
theorem verify_password_false_on_decode_failure (kdf : Kdf) (attempt : String) :
    verify_password kdf none attempt = false ∧
    ∀ s : String, b64decode s = none →
      verify_password kdf (some s) attempt = false := by
  refine ⟨rfl, fun s hs => ?_⟩
  simp only [verify_password, hs]

theorem verify_password_false_on_decode_failure_witness :
    verify_password kdfW none "pw" = false ∧
    verify_password kdfW (some "abc") "pw" = false := by
  have h := verify_password_false_on_decode_failure kdfW "pw"
  exact ⟨h.1, h.2 "abc" (by decide)⟩

/-- C3: for a user with a security question set, if the supplied answer does
not verify against the stored `security_answer_hash`, the forgot-password
flow leaves the stored `password_hash` unchanged: the only mutation,
`DB.set_password` at line 359, sits strictly inside the
`verify_password(...)` branch at line 354. -/
theorem reset_password_wrong_answer_no_mutation (kdf : Kdf) (u : UserRow)
    (a : String) (newpw : Option String) (freshSalt : List Nat)
    (hq : truthyStr u.security_q = true)
    (hv : verify_password kdf u.security_a_hash a = false) :
    (forgot_password kdf u (some a) newpw freshSalt).password_hash =
      u.password_hash := by
  simp only [forgot_password, hq, if_true]
  by_cases ha : a = ""
  · simp [ha]
  · simp [ha, hv]

theorem reset_password_wrong_answer_no_mutation_witness :
    (forgot_password kdfW userW (some "wrong") (some "np") saltW).password_hash =
      "ph" := by
  exact reset_password_wrong_answer_no_mutation kdfW userW "wrong" (some "np")
    saltW (by decide) (by decide)

/-! ### Membership in the insight-line segments -/

theorem mem_optLine {x : Insight} {o : Option ℚ} {mk : ℚ → Insight} :
    x ∈ optLine o mk ↔ ∃ v, o = some v ∧ v ≠ 0 ∧ x = mk v := by
  cases o with
  | none => simp [optLine]
  | some v =>
    by_cases hv : v = 0 <;> simp [optLine, hv]

theorem mem_weightGoalLine {x : Insight} {goal avg : Option ℚ} :
    x ∈ weightGoalLine goal avg ↔
      ∃ gv av, goal = some gv ∧ avg = some av ∧ gv ≠ 0 ∧ av ≠ 0 ∧
        x = Insight.weightVsGoal av (av - gv) := by
  cases goal with
  | none => simp [weightGoalLine]
  | some gv =>
    cases avg with
    | none => simp [weightGoalLine]
    | some av =>
      by_cases h1 : gv = 0
      · simp [weightGoalLine, h1]
      · by_cases h2 : av = 0 <;> simp [weightGoalLine, h1, h2]

theorem mem_goalPctLine {x : Insight} {goal avg : Option ℚ} {mk : ℚ → Insight} :
    x ∈ goalPctLine goal avg mk ↔
      ∃ gv av, goal = some gv ∧ avg = some av ∧ gv ≠ 0 ∧ av ≠ 0 ∧
        x = mk (av / gv * 100) := by
  cases goal with
  | none => simp [goalPctLine]
  | some gv =>
    cases avg with
    | none => simp [goalPctLine]
    | some av =>
      by_cases h1 : gv = 0
      · simp [goalPctLine, h1]
      · by_cases h2 : av = 0 <;> simp [goalPctLine, h1, h2]

theorem mem_goalLines {x : Insight} {g : Option GoalsRow}
    {a1 a2 a3 a4 : Option ℚ} :
    x ∈ goalLines g a1 a2 a3 a4 ↔
      ∃ grow, g = some grow ∧
        (x ∈ weightGoalLine grow.weight_goal a2 ∨
         x ∈ goalPctLine (grow.steps_goal.map fun n : Int => (n : ℚ)) a4
           Insight.stepsGoalPct ∨
         x ∈ goalPctLine grow.calories_goal a3 Insight.caloriesGoalPct ∨
         x ∈ goalPctLine grow.sleep_goal a1 Insight.sleepGoalPct) := by
  cases g <;> simp [goalLines, List.mem_append, or_assoc]

theorem mem_trendLines {x : Insight} {weights : List (Option ℚ)} :
    x ∈ trendLines weights ↔
      3 ≤ (weights.filterMap id).length ∧
        x = Insight.weightTrend (olsSlope (weights.filterMap id))
          (trendLabel (olsSlope (weights.filterMap id))) := by
  by_cases h : 3 ≤ (weights.filterMap id).length <;> simp [trendLines, h]

theorem mem_bodyLines {x : Insight} {u : Option UserRow} :
    x ∈ bodyLines u ↔
      ∃ urow h w a, u = some urow ∧ urow.height_cm = some h ∧
        urow.weight_kg = some w ∧ urow.age = some a ∧
        h ≠ 0 ∧ w ≠ 0 ∧ a ≠ 0 ∧
        (x = Insight.bmiLine (calc_bmi w h) (bmi_category (calc_bmi w h)) ∨
         x = Insight.bmrLine (calc_bmr w h a)) := by
  cases u with
  | none => simp [bodyLines]
  | some urow =>
    cases hh : urow.height_cm with
    | none => simp [bodyLines, hh]
    | some h =>
      cases hw : urow.weight_kg with
      | none => simp [bodyLines, hh, hw]
      | some w =>
        cases ha : urow.age with
        | none => simp [bodyLines, hh, hw, ha]
        | some a =>
          by_cases h0 : h = 0
          · simp [bodyLines, hh, hw, ha, h0]
          · by_cases w0 : w = 0
            · simp [bodyLines, hh, hw, ha, h0, w0]
            · by_cases a0 : a = 0 <;>
                simp [bodyLines, hh, hw, ha, h0, w0, a0]

theorem mem_refresh_insights {x : Insight} {rows : List DailyRow}
    {g : Option GoalsRow} {u : Option UserRow} :
    x ∈ refresh_insights rows g u ↔
      (rows = [] ∧ x = Insight.noData) ∨
      (rows ≠ [] ∧
        (x = Insight.header rows.length ∨
         x ∈ optLine (numeric_avg (rows.map fun r => r.sleep_hrs))
           Insight.avgSleep ∨
         x ∈ optLine (numeric_avg (rows.map fun r => r.weight))
           Insight.avgWeight ∨
         x ∈ optLine (numeric_avg (rows.map fun r => r.calories))
           Insight.avgCalories ∨
         x ∈ optLine (numeric_avg (rows.map fun r => r.steps.map fun n : Int => (n : ℚ)))
           Insight.avgSteps ∨
         x ∈ goalLines g (numeric_avg (rows.map fun r => r.sleep_hrs))
           (numeric_avg (rows.map fun r => r.weight))
           (numeric_avg (rows.map fun r => r.calories))
           (numeric_avg (rows.map fun r => r.steps.map fun n : Int => (n : ℚ))) ∨
         x ∈ trendLines (rows.map fun r => r.weight) ∨
         x ∈ bodyLines u)) := by
  by_cases hr : rows = []
  · simp [refresh_insights, hr]
  · simp [refresh_insights, hr, List.mem_append, List.mem_cons, or_assoc]

/-! ### Non-vanishing of the trend denominator -/

theorem list_sum_nonneg_all_zero {l : List ℚ} (h : ∀ x ∈ l, 0 ≤ x)
    (hs : l.sum = 0) : ∀ x ∈ l, x = 0 := by
  induction l with
  | nil => simp
  | cons y t ih =>
    have hy : 0 ≤ y := h y (by simp)
    have ht : 0 ≤ t.sum := List.sum_nonneg (fun x hx => h x (by simp [hx]))
    simp only [List.sum_cons] at hs
    have hy0 : y = 0 := by linarith
    have ht0 : t.sum = 0 := by linarith
    intro x hx
    rcases List.mem_cons.mp hx with rfl | hx2
    · exact hy0
    · exact ih (fun z hz => h z (by simp [hz])) ht0 x hx2

theorem olsDen_ne_zero {ws : List ℚ} (h3 : 3 ≤ ws.length) : olsDen ws ≠ 0 := by
  intro h0
  unfold olsDen at h0
  have hlen0 : 0 < ws.length := by omega
  have hlen1 : 1 < ws.length := by omega
  have hx0 : (0 : ℚ) ∈ olsXs ws.length := by
    simp only [olsXs, List.mem_map]
    exact ⟨0, List.mem_range.mpr hlen0, Nat.cast_zero⟩
  have hx1 : (1 : ℚ) ∈ olsXs ws.length := by
    simp only [olsXs, List.mem_map]
    exact ⟨1, List.mem_range.mpr hlen1, Nat.cast_one⟩
  have hall := list_sum_nonneg_all_zero
    (l := (olsXs ws.length).map (fun xi => (xi - olsMeanX ws.length) ^ 2))
    (by
      intro x hx
      rcases List.mem_map.mp hx with ⟨xi, _, rfl⟩
      exact sq_nonneg _)
    h0
  have h0eq : ((0 : ℚ) - olsMeanX ws.length) ^ 2 = 0 :=
    hall _ (List.mem_map_of_mem _ hx0)
  have h1eq : ((1 : ℚ) - olsMeanX ws.length) ^ 2 = 0 :=
    hall _ (List.mem_map_of_mem _ hx1)
  have hm0 : (0 : ℚ) - olsMeanX ws.length = 0 :=
    pow_eq_zero_iff (by norm_num) |>.mp h0eq
  have hm1 : (1 : ℚ) - olsMeanX ws.length = 0 :=
    pow_eq_zero_iff (by norm_num) |>.mp h1eq
  linarith

/-- C5: for every record window, the weight trend is the ordinary
least-squares slope of the non-null weight samples against sequential index
0..k-1 — the emitted slope is the genuine quotient `num/den` because the
denominator cannot vanish once k ≥ 3 — computed exactly when at least 3
such samples exist (fewer than 3 samples yields no trend line at all, not a
zero slope); the direction is "losing"/"gaining"/"stable" by the sign of
the slope, and the weights [70, 69, 68] give slope −1 classified
"losing". -/
theorem weight_trend_least_squares :
    (∀ (rows : List DailyRow) (g : Option GoalsRow) (u : Option UserRow),
      (3 ≤ ((rows.map fun r => r.weight).filterMap id).length →
        Insight.weightTrend
            (olsSlope ((rows.map fun r => r.weight).filterMap id))
            (trendLabel (olsSlope ((rows.map fun r => r.weight).filterMap id))) ∈
          refresh_insights rows g u ∧
        olsDen ((rows.map fun r => r.weight).filterMap id) ≠ 0 ∧
        olsSlope ((rows.map fun r => r.weight).filterMap id) =
          olsNum ((rows.map fun r => r.weight).filterMap id) /
            olsDen ((rows.map fun r => r.weight).filterMap id)) ∧
      (((rows.map fun r => r.weight).filterMap id).length < 3 →
        ∀ s d, Insight.weightTrend s d ∉ refresh_insights rows g u)) ∧
    (∀ s : ℚ, (s < 0 → trendLabel s = "losing") ∧
      (0 < s → trendLabel s = "gaining") ∧ (s = 0 → trendLabel s = "stable")) ∧
    olsSlope [70, 69, 68] = -1 ∧
    trendLabel (olsSlope [70, 69, 68]) = "losing" := by
  have hslope : olsSlope [70, 69, 68] = -1 := by
    norm_num [olsSlope, olsNum, olsDen, olsMeanX, olsMeanY, olsXs,
      List.range_succ]
  refine ⟨fun rows g u => ⟨fun h3 => ?_, fun hlt => ?_⟩, fun s => ?_, hslope, ?_⟩
  · have hne : rows ≠ [] := by
      intro hnil
      rw [hnil] at h3
      simp at h3
    refine ⟨?_, olsDen_ne_zero h3, ?_⟩
    · exact mem_refresh_insights.mpr (Or.inr ⟨hne,
        Or.inr (Or.inr (Or.inr (Or.inr (Or.inr (Or.inr (Or.inl
          (mem_trendLines.mpr ⟨h3, rfl⟩)))))))⟩)
    · unfold olsSlope
      rw [if_neg (olsDen_ne_zero h3)]
  · intro s d hmem
    rcases mem_refresh_insights.mp hmem with ⟨_, hx⟩ | ⟨_, hx⟩
    · simp at hx
    · rcases hx with hx | hx | hx | hx | hx | hx | hx | hx
      · simp at hx
      · rcases mem_optLine.mp hx with ⟨v, _, _, hv⟩; simp at hv
      · rcases mem_optLine.mp hx with ⟨v, _, _, hv⟩; simp at hv
      · rcases mem_optLine.mp hx with ⟨v, _, _, hv⟩; simp at hv
      · rcases mem_optLine.mp hx with ⟨v, _, _, hv⟩; simp at hv
      · rcases mem_goalLines.mp hx with ⟨grow, _, hg | hg | hg | hg⟩
        · rcases mem_weightGoalLine.mp hg with ⟨gv, av, _, _, _, _, hv⟩
          simp at hv
        · rcases mem_goalPctLine.mp hg with ⟨gv, av, _, _, _, _, hv⟩
          simp at hv
        · rcases mem_goalPctLine.mp hg with ⟨gv, av, _, _, _, _, hv⟩
          simp at hv
        · rcases mem_goalPctLine.mp hg with ⟨gv, av, _, _, _, _, hv⟩
          simp at hv
      · rcases mem_trendLines.mp hx with ⟨h3len, _⟩
        omega
      · rcases mem_bodyLines.mp hx with
          ⟨urow, hh, ww, aa, _, _, _, _, _, _, _, hv | hv⟩ <;> simp at hv
  · refine ⟨fun hs => ?_, fun hs => ?_, fun hs => ?_⟩ <;>
      unfold trendLabel <;> split_ifs <;>
      first | rfl | linarith
  · rw [hslope]
    norm_num [trendLabel]

theorem weight_trend_least_squares_witness :
    Insight.weightTrend (-1) "losing" ∈ refresh_insights rowsC5 none none := by
  have h := (weight_trend_least_squares.1 rowsC5 none none).1 (by decide)
  have hws : ((rowsC5.map fun r => r.weight).filterMap id) = [70, 69, 68] := rfl
  rw [hws] at h
  have hl := weight_trend_least_squares.2.2.2
  have hs := weight_trend_least_squares.2.2.1
  rw [hl, hs] at h
  exact h.1

/-- C9: the BMR line is emitted only when weight, height and age are all
present (the gate at line 664 requires all three to be truthy), its value
always comes from the male branch of `calc_bmr` — the call at line 666
passes no `sex`, so the default `'male'` applies and the value is
`round(10w + 6.25h − 5·age + 5, 1)` — and for weight 70, height 175,
age 30 the result is 1648.8. -/
theorem bmr_male_branch :
    (∀ (rows : List DailyRow) (g : Option GoalsRow) (u : Option UserRow)
      (b : Option ℚ), Insight.bmrLine b ∈ refresh_insights rows g u →
      ∃ urow w h a, u = some urow ∧ urow.weight_kg = some w ∧
        urow.height_cm = some h ∧ urow.age = some a ∧
        b = calc_bmr w h a ∧
        calc_bmr w h a = some (roundQ (10 * w + 6.25 * h - 5 * a + 5) 1)) ∧
    calc_bmr 70 175 30 = some 1648.8 := by
  constructor
  · intro rows g u b hmem
    rcases mem_refresh_insights.mp hmem with ⟨_, hx⟩ | ⟨_, hx⟩
    · simp at hx
    · rcases hx with hx | hx | hx | hx | hx | hx | hx | hx
      · simp at hx
      · rcases mem_optLine.mp hx with ⟨v, _, _, hv⟩; simp at hv
      · rcases mem_optLine.mp hx with ⟨v, _, _, hv⟩; simp at hv
      · rcases mem_optLine.mp hx with ⟨v, _, _, hv⟩; simp at hv
      · rcases mem_optLine.mp hx with ⟨v, _, _, hv⟩; simp at hv
      · rcases mem_goalLines.mp hx with ⟨grow, _, hg | hg | hg | hg⟩
        · rcases mem_weightGoalLine.mp hg with ⟨gv, av, _, _, _, _, hv⟩
          simp at hv
        · rcases mem_goalPctLine.mp hg with ⟨gv, av, _, _, _, _, hv⟩
          simp at hv
        · rcases mem_goalPctLine.mp hg with ⟨gv, av, _, _, _, _, hv⟩
          simp at hv
        · rcases mem_goalPctLine.mp hg with ⟨gv, av, _, _, _, _, hv⟩
          simp at hv
      · rcases mem_trendLines.mp hx with ⟨_, hv⟩; simp at hv
      · rcases mem_bodyLines.mp hx with
          ⟨urow, h, w, a, hu, hh, hw, ha, _, _, _, hv | hv⟩
        · simp at hv
        · refine ⟨urow, w, h, a, hu, hw, hh, ha, ?_, by simp [calc_bmr]⟩
          exact (Insight.bmrLine.injEq .. ).mp hv
  · norm_num [calc_bmr, roundQ, roundHalfEven]

theorem bmr_male_branch_witness :
    calc_bmr 70 175 30 = some 1648.8 ∧
    (∃ urow w h a, some userC4full = some urow ∧
      urow.weight_kg = some w ∧ urow.height_cm = some h ∧ urow.age = some a ∧
      calc_bmr (70 : ℚ) 175 30 = calc_bmr w h a ∧
      calc_bmr w h a = some (roundQ (10 * w + 6.25 * h - 5 * a + 5) 1)) := by
  refine ⟨bmr_male_branch.2, bmr_male_branch.1 rowsC4 none (some userC4full)
    (calc_bmr 70 175 30) ?_⟩
  refine mem_refresh_insights.mpr (Or.inr ⟨by simp [rowsC4], Or.inr (Or.inr
    (Or.inr (Or.inr (Or.inr (Or.inr (Or.inr
      (mem_bodyLines.mpr ⟨userC4full, 175, 70, 30, rfl, rfl, rfl, rfl,
        by norm_num, by norm_num, by norm_num, Or.inr rfl⟩)))))))⟩)

/-- C4 counterexample: a profile with weight 70 and height 175 but no age
yields an insight list with no BMI line at all (the gate at line 664 also
requires `u['age']` to be truthy), refuting "BMI is reported exactly when
both weight and height are present; no other profile field is required". -/
theorem bmi_requires_age_counterexample :
    userC4.weight_kg = some 70 ∧ userC4.height_cm = some 175 ∧
    userC4.age = none ∧
    refresh_insights rowsC4 none (some userC4) =
      [Insight.header 1, Insight.avgSleep 7] ∧
    hasBMILine (refresh_insights rowsC4 none (some userC4)) = false := by
  have hev : refresh_insights rowsC4 none (some userC4) =
      [Insight.header 1, Insight.avgSleep 7] := by
    norm_num [refresh_insights, rowsC4, userC4, numeric_avg, optLine,
      goalLines, trendLines, bodyLines, List.filterMap_cons]
  refine ⟨rfl, rfl, rfl, hev, ?_⟩
  rw [hev]
  rfl

/-- C4 amended: when at least one record exists, the BMI line is computed
and reported exactly when weight, height AND age are all present and
non-zero in the profile (the code's truthiness gate at line 664 also
requires age, contrary to the claim); the reported values are
`calc_bmi(weight, height)` and its category. -/
theorem bmi_reported_iff (rows : List DailyRow) (g : Option GoalsRow)
    (u : Option UserRow) (b : Option ℚ) (c : String) (hrows : rows ≠ []) :
    Insight.bmiLine b c ∈ refresh_insights rows g u ↔
      ∃ urow h w a, u = some urow ∧ urow.height_cm = some h ∧
        urow.weight_kg = some w ∧ urow.age = some a ∧
        h ≠ 0 ∧ w ≠ 0 ∧ a ≠ 0 ∧ b = calc_bmi w h ∧
        c = bmi_category (calc_bmi w h) := by
  constructor
  · intro hmem
    rcases mem_refresh_insights.mp hmem with ⟨hnil, _⟩ | ⟨_, hx⟩
    · exact absurd hnil hrows
    · rcases hx with hx | hx | hx | hx | hx | hx | hx | hx
      · simp at hx
      · rcases mem_optLine.mp hx with ⟨v, _, _, hv⟩; simp at hv
      · rcases mem_optLine.mp hx with ⟨v, _, _, hv⟩; simp at hv
      · rcases mem_optLine.mp hx with ⟨v, _, _, hv⟩; simp at hv
      · rcases mem_optLine.mp hx with ⟨v, _, _, hv⟩; simp at hv
      · rcases mem_goalLines.mp hx with ⟨grow, _, hg | hg | hg | hg⟩
        · rcases mem_weightGoalLine.mp hg with ⟨gv, av, _, _, _, _, hv⟩
          simp at hv
        · rcases mem_goalPctLine.mp hg with ⟨gv, av, _, _, _, _, hv⟩
          simp at hv
        · rcases mem_goalPctLine.mp hg with ⟨gv, av, _, _, _, _, hv⟩
          simp at hv
        · rcases mem_goalPctLine.mp hg with ⟨gv, av, _, _, _, _, hv⟩
          simp at hv
      · rcases mem_trendLines.mp hx with ⟨_, hv⟩; simp at hv
      · rcases mem_bodyLines.mp hx with
          ⟨urow, h, w, a, hu, hh, hw, ha, h0, w0, a0, hv | hv⟩
        · have := (Insight.bmiLine.injEq .. ).mp hv
          exact ⟨urow, h, w, a, hu, hh, hw, ha, h0, w0, a0, this.1, this.2⟩
        · simp at hv
  · rintro ⟨urow, h, w, a, hu, hh, hw, ha, h0, w0, a0, hb, hc⟩
    refine mem_refresh_insights.mpr (Or.inr ⟨hrows, Or.inr (Or.inr (Or.inr
      (Or.inr (Or.inr (Or.inr (Or.inr
        (mem_bodyLines.mpr
          ⟨urow, h, w, a, hu, hh, hw, ha, h0, w0, a0, Or.inl ?_⟩)))))))⟩)
    rw [hb, hc]

theorem bmi_reported_iff_witness :
    Insight.bmiLine (calc_bmi 70 175) (bmi_category (calc_bmi 70 175)) ∈
      refresh_insights rowsC4 none (some userC4full) := by
  exact (bmi_reported_iff rowsC4 none (some userC4full) (calc_bmi 70 175)
    (bmi_category (calc_bmi 70 175)) (by simp [rowsC4])).mpr
    ⟨userC4full, 175, 70, 30, rfl, rfl, rfl, rfl, by norm_num, by norm_num,
      by norm_num, rfl, rfl⟩

/-- C6: each goal-attainment percentage line (steps, calories, sleep) is
emitted only when both the goal and the average exist (and are non-zero,
the code's truthiness gate), and its value is `avg/goal*100` — e.g.
avg_steps 8000 with steps_goal 10000 yields 80.0% — while the weight goal
line carries the signed difference `avg − goal`, not a percentage. -/
theorem goal_attainment_shapes :
    (∀ (rows : List DailyRow) (g : Option GoalsRow) (u : Option UserRow),
      (∀ p, Insight.stepsGoalPct p ∈ refresh_insights rows g u →
        ∃ grow sg av, g = some grow ∧ grow.steps_goal = some sg ∧
          numeric_avg (rows.map fun r => r.steps.map fun n : Int => (n : ℚ)) =
            some av ∧
          (sg : ℚ) ≠ 0 ∧ av ≠ 0 ∧ p = av / (sg : ℚ) * 100) ∧
      (∀ p, Insight.caloriesGoalPct p ∈ refresh_insights rows g u →
        ∃ grow cg av, g = some grow ∧ grow.calories_goal = some cg ∧
          numeric_avg (rows.map fun r => r.calories) = some av ∧
          cg ≠ 0 ∧ av ≠ 0 ∧ p = av / cg * 100) ∧
      (∀ p, Insight.sleepGoalPct p ∈ refresh_insights rows g u →
        ∃ grow sg av, g = some grow ∧ grow.sleep_goal = some sg ∧
          numeric_avg (rows.map fun r => r.sleep_hrs) = some av ∧
          sg ≠ 0 ∧ av ≠ 0 ∧ p = av / sg * 100) ∧
      (∀ av d, Insight.weightVsGoal av d ∈ refresh_insights rows g u →
        ∃ grow wg, g = some grow ∧ grow.weight_goal = some wg ∧
          numeric_avg (rows.map fun r => r.weight) = some av ∧
          wg ≠ 0 ∧ av ≠ 0 ∧ d = av - wg)) ∧
    Insight.stepsGoalPct 80 ∈ refresh_insights rowsC6 (some goalsC6) none ∧
    numeric_avg (rowsC6.map fun r => r.steps.map fun n : Int => (n : ℚ)) =
      some 8000 ∧ goalsC6.steps_goal = some 10000 := by
  have havg : numeric_avg
      (rowsC6.map fun r => r.steps.map fun n : Int => (n : ℚ)) = some 8000 := by
    norm_num [rowsC6, numeric_avg, List.filterMap_cons]
  refine ⟨fun rows g u => ⟨fun p hmem => ?_, fun p hmem => ?_,
    fun p hmem => ?_, fun av d hmem => ?_⟩, ?_, havg, rfl⟩
  · rcases mem_refresh_insights.mp hmem with ⟨_, hx⟩ | ⟨_, hx⟩
    · simp at hx
    · rcases hx with hx | hx | hx | hx | hx | hx | hx | hx
      · simp at hx
      · rcases mem_optLine.mp hx with ⟨v, _, _, hv⟩; simp at hv
      · rcases mem_optLine.mp hx with ⟨v, _, _, hv⟩; simp at hv
      · rcases mem_optLine.mp hx with ⟨v, _, _, hv⟩; simp at hv
      · rcases mem_optLine.mp hx with ⟨v, _, _, hv⟩; simp at hv
      · rcases mem_goalLines.mp hx with ⟨grow, hgrow, hg | hg | hg | hg⟩
        · rcases mem_weightGoalLine.mp hg with ⟨gv, av, _, _, _, _, hv⟩
          simp at hv
        · rcases mem_goalPctLine.mp hg with ⟨gv, av, hgoal, havg2, g0, a0, hv⟩
          rcases Option.map_eq_some'.mp hgoal with ⟨sg, hsg, hcast⟩
          have hp := (Insight.stepsGoalPct.injEq .. ).mp hv
          refine ⟨grow, sg, av, hgrow, hsg, havg2, ?_, a0, ?_⟩
          · rw [hcast]; exact g0
          · rw [hp, hcast]
        · rcases mem_goalPctLine.mp hg with ⟨gv, av, _, _, _, _, hv⟩
          simp at hv
        · rcases mem_goalPctLine.mp hg with ⟨gv, av, _, _, _, _, hv⟩
          simp at hv
      · rcases mem_trendLines.mp hx with ⟨_, hv⟩; simp at hv
      · rcases mem_bodyLines.mp hx with
          ⟨urow, hh, ww, aa, _, _, _, _, _, _, _, hv | hv⟩ <;> simp at hv
  · rcases mem_refresh_insights.mp hmem with ⟨_, hx⟩ | ⟨_, hx⟩
    · simp at hx
    · rcases hx with hx | hx | hx | hx | hx | hx | hx | hx
      · simp at hx
      · rcases mem_optLine.mp hx with ⟨v, _, _, hv⟩; simp at hv
      · rcases mem_optLine.mp hx with ⟨v, _, _, hv⟩; simp at hv
      · rcases mem_optLine.mp hx with ⟨v, _, _, hv⟩; simp at hv
      · rcases mem_optLine.mp hx with ⟨v, _, _, hv⟩; simp at hv
      · rcases mem_goalLines.mp hx with ⟨grow, hgrow, hg | hg | hg | hg⟩
        · rcases mem_weightGoalLine.mp hg with ⟨gv, av, _, _, _, _, hv⟩
          simp at hv
        · rcases mem_goalPctLine.mp hg with ⟨gv, av, _, _, _, _, hv⟩
          simp at hv
        · rcases mem_goalPctLine.mp hg with ⟨gv, av, hgoal, havg2, g0, a0, hv⟩
          have hp := (Insight.caloriesGoalPct.injEq .. ).mp hv
          exact ⟨grow, gv, av, hgrow, hgoal, havg2, g0, a0, hp⟩
        · rcases mem_goalPctLine.mp hg with ⟨gv, av, _, _, _, _, hv⟩
          simp at hv
      · rcases mem_trendLines.mp hx with ⟨_, hv⟩; simp at hv
      · rcases mem_bodyLines.mp hx with
          ⟨urow, hh, ww, aa, _, _, _, _, _, _, _, hv | hv⟩ <;> simp at hv
  · rcases mem_refresh_insights.mp hmem with ⟨_, hx⟩ | ⟨_, hx⟩
    · simp at hx
    · rcases hx with hx | hx | hx | hx | hx | hx | hx | hx
      · simp at hx
      · rcases mem_optLine.mp hx with ⟨v, _, _, hv⟩; simp at hv
      · rcases mem_optLine.mp hx with ⟨v, _, _, hv⟩; simp at hv
      · rcases mem_optLine.mp hx with ⟨v, _, _, hv⟩; simp at hv
      · rcases mem_optLine.mp hx with ⟨v, _, _, hv⟩; simp at hv
      · rcases mem_goalLines.mp hx with ⟨grow, hgrow, hg | hg | hg | hg⟩
        · rcases mem_weightGoalLine.mp hg with ⟨gv, av, _, _, _, _, hv⟩
          simp at hv
        · rcases mem_goalPctLine.mp hg with ⟨gv, av, _, _, _, _, hv⟩
          simp at hv
        · rcases mem_goalPctLine.mp hg with ⟨gv, av, _, _, _, _, hv⟩
          simp at hv
        · rcases mem_goalPctLine.mp hg with ⟨gv, av, hgoal, havg2, g0, a0, hv⟩
          have hp := (Insight.sleepGoalPct.injEq .. ).mp hv
          exact ⟨grow, gv, av, hgrow, hgoal, havg2, g0, a0, hp⟩
      · rcases mem_trendLines.mp hx with ⟨_, hv⟩; simp at hv
      · rcases mem_bodyLines.mp hx with
          ⟨urow, hh, ww, aa, _, _, _, _, _, _, _, hv | hv⟩ <;> simp at hv
  · rcases mem_refresh_insights.mp hmem with ⟨_, hx⟩ | ⟨_, hx⟩
    · simp at hx
    · rcases hx with hx | hx | hx | hx | hx | hx | hx | hx
      · simp at hx
      · rcases mem_optLine.mp hx with ⟨v, _, _, hv⟩; simp at hv
      · rcases mem_optLine.mp hx with ⟨v, _, _, hv⟩; simp at hv
      · rcases mem_optLine.mp hx with ⟨v, _, _, hv⟩; simp at hv
      · rcases mem_optLine.mp hx with ⟨v, _, _, hv⟩; simp at hv
      · rcases mem_goalLines.mp hx with ⟨grow, hgrow, hg | hg | hg | hg⟩
        · rcases mem_weightGoalLine.mp hg with ⟨gv, av2, hgoal, havg2, g0, a0, hv⟩
          have hp := (Insight.weightVsGoal.injEq .. ).mp hv
          refine ⟨grow, gv, hgrow, hgoal, ?_, g0, ?_, ?_⟩
          · rw [hp.1]; exact havg2
          · rw [hp.1]; exact a0
          · rw [hp.2, hp.1]
        · rcases mem_goalPctLine.mp hg with ⟨gv, av2, _, _, _, _, hv⟩
          simp at hv
        · rcases mem_goalPctLine.mp hg with ⟨gv, av2, _, _, _, _, hv⟩
          simp at hv
        · rcases mem_goalPctLine.mp hg with ⟨gv, av2, _, _, _, _, hv⟩
          simp at hv
      · rcases mem_trendLines.mp hx with ⟨_, hv⟩; simp at hv
      · rcases mem_bodyLines.mp hx with
          ⟨urow, hh, ww, aa, _, _, _, _, _, _, _, hv | hv⟩ <;> simp at hv
  · refine mem_refresh_insights.mpr (Or.inr ⟨by simp [rowsC6], Or.inr (Or.inr
      (Or.inr (Or.inr (Or.inr (Or.inl (mem_goalLines.mpr
        ⟨goalsC6, rfl, Or.inr (Or.inl (mem_goalPctLine.mpr
          ⟨10000, 8000, rfl, havg, by norm_num, by norm_num, by norm_num⟩))⟩))))))⟩)

theorem goal_attainment_shapes_witness :
    ∃ grow sg av, some goalsC6 = some grow ∧ grow.steps_goal = some sg ∧
      numeric_avg (rowsC6.map fun r => r.steps.map fun n : Int => (n : ℚ)) =
        some av ∧
      (sg : ℚ) ≠ 0 ∧ av ≠ 0 ∧ (80 : ℚ) = av / (sg : ℚ) * 100 := by
  exact (goal_attainment_shapes.1 rowsC6 (some goalsC6) none).1 80
    goal_attainment_shapes.2.1

/-- If an average is exactly `some 0`, its `optLine` is empty. -/
theorem avg_zero_no_optLine {o : Option ℚ} {mk : ℚ → Insight}
    (h : o = some 0) : ∀ x, x ∉ optLine o mk := by
  intro x hx
  rcases mem_optLine.mp hx with ⟨v, hsome, hne0, _⟩
  rw [h] at hsome
  injection hsome with hv
  exact hne0 hv.symm

/-- C10 (implicit): a metric with at least one non-null sample whose
average is exactly 0 gets no average line — presence is decided by Python
truthiness of the computed average (`if avg_x:`), not by sample count, so
an all-zero metric is omitted exactly like a metric with no samples. -/
theorem zero_average_omits_line (m : Metric) (rows : List DailyRow)
    (g : Option GoalsRow) (u : Option UserRow)
    (havg : numeric_avg (rows.map (metricValue m)) = some 0)
    (_hsample : ∃ r ∈ rows, metricValue m r ≠ none) :
    ∀ v, avgLineOf m v ∉ refresh_insights rows g u := by
  cases m with
  | sleep =>
    have havg2 : numeric_avg (rows.map (fun r => r.sleep_hrs)) = some 0 := havg
    intro v hmem
    rcases mem_refresh_insights.mp hmem with ⟨_, hx⟩ | ⟨_, hx⟩
    · simp [avgLineOf] at hx
    · rcases hx with hx | hx | hx | hx | hx | hx | hx | hx
      · simp [avgLineOf] at hx
      · exact avg_zero_no_optLine havg2 _ hx
      · rcases mem_optLine.mp hx with ⟨v2, _, _, hv⟩
        simp [avgLineOf] at hv
      · rcases mem_optLine.mp hx with ⟨v2, _, _, hv⟩
        simp [avgLineOf] at hv
      · rcases mem_optLine.mp hx with ⟨v2, _, _, hv⟩
        simp [avgLineOf] at hv
      · rcases mem_goalLines.mp hx with ⟨grow, _, hg | hg | hg | hg⟩
        · rcases mem_weightGoalLine.mp hg with ⟨gv, av, _, _, _, _, hv⟩
          simp [avgLineOf] at hv
        · rcases mem_goalPctLine.mp hg with ⟨gv, av, _, _, _, _, hv⟩
          simp [avgLineOf] at hv
        · rcases mem_goalPctLine.mp hg with ⟨gv, av, _, _, _, _, hv⟩
          simp [avgLineOf] at hv
        · rcases mem_goalPctLine.mp hg with ⟨gv, av, _, _, _, _, hv⟩
          simp [avgLineOf] at hv
      · rcases mem_trendLines.mp hx with ⟨_, hv⟩
        simp [avgLineOf] at hv
      · rcases mem_bodyLines.mp hx with
          ⟨urow, hh, ww, aa, _, _, _, _, _, _, _, hv | hv⟩ <;>
          simp [avgLineOf] at hv
  | weight =>
    have havg2 : numeric_avg (rows.map (fun r => r.weight)) = some 0 := havg
    intro v hmem
    rcases mem_refresh_insights.mp hmem with ⟨_, hx⟩ | ⟨_, hx⟩
    · simp [avgLineOf] at hx
    · rcases hx with hx | hx | hx | hx | hx | hx | hx | hx
      · simp [avgLineOf] at hx
      · rcases mem_optLine.mp hx with ⟨v2, _, _, hv⟩
        simp [avgLineOf] at hv
      · exact avg_zero_no_optLine havg2 _ hx
      · rcases mem_optLine.mp hx with ⟨v2, _, _, hv⟩
        simp [avgLineOf] at hv
      · rcases mem_optLine.mp hx with ⟨v2, _, _, hv⟩
        simp [avgLineOf] at hv
      · rcases mem_goalLines.mp hx with ⟨grow, _, hg | hg | hg | hg⟩
        · rcases mem_weightGoalLine.mp hg with ⟨gv, av, _, _, _, _, hv⟩
          simp [avgLineOf] at hv
        · rcases mem_goalPctLine.mp hg with ⟨gv, av, _, _, _, _, hv⟩
          simp [avgLineOf] at hv
        · rcases mem_goalPctLine.mp hg with ⟨gv, av, _, _, _, _, hv⟩
          simp [avgLineOf] at hv
        · rcases mem_goalPctLine.mp hg with ⟨gv, av, _, _, _, _, hv⟩
          simp [avgLineOf] at hv
      · rcases mem_trendLines.mp hx with ⟨_, hv⟩
        simp [avgLineOf] at hv
      · rcases mem_bodyLines.mp hx with
          ⟨urow, hh, ww, aa, _, _, _, _, _, _, _, hv | hv⟩ <;>
          simp [avgLineOf] at hv
  | calories =>
    have havg2 : numeric_avg (rows.map (fun r => r.calories)) = some 0 := havg
    intro v hmem
    rcases mem_refresh_insights.mp hmem with ⟨_, hx⟩ | ⟨_, hx⟩
    · simp [avgLineOf] at hx
    · rcases hx with hx | hx | hx | hx | hx | hx | hx | hx
      · simp [avgLineOf] at hx
      · rcases mem_optLine.mp hx with ⟨v2, _, _, hv⟩
        simp [avgLineOf] at hv
      · rcases mem_optLine.mp hx with ⟨v2, _, _, hv⟩
        simp [avgLineOf] at hv
      · exact avg_zero_no_optLine havg2 _ hx
      · rcases mem_optLine.mp hx with ⟨v2, _, _, hv⟩
        simp [avgLineOf] at hv
      · rcases mem_goalLines.mp hx with ⟨grow, _, hg | hg | hg | hg⟩
        · rcases mem_weightGoalLine.mp hg with ⟨gv, av, _, _, _, _, hv⟩
          simp [avgLineOf] at hv
        · rcases mem_goalPctLine.mp hg with ⟨gv, av, _, _, _, _, hv⟩
          simp [avgLineOf] at hv
        · rcases mem_goalPctLine.mp hg with ⟨gv, av, _, _, _, _, hv⟩
          simp [avgLineOf] at hv
        · rcases mem_goalPctLine.mp hg with ⟨gv, av, _, _, _, _, hv⟩
          simp [avgLineOf] at hv
      · rcases mem_trendLines.mp hx with ⟨_, hv⟩
        simp [avgLineOf] at hv
      · rcases mem_bodyLines.mp hx with
          ⟨urow, hh, ww, aa, _, _, _, _, _, _, _, hv | hv⟩ <;>
          simp [avgLineOf] at hv
  | steps =>
    have havg2 : numeric_avg (rows.map (fun r => r.steps.map fun n : Int => (n : ℚ))) = some 0 := havg
    intro v hmem
    rcases mem_refresh_insights.mp hmem with ⟨_, hx⟩ | ⟨_, hx⟩
    · simp [avgLineOf] at hx
    · rcases hx with hx | hx | hx | hx | hx | hx | hx | hx
      · simp [avgLineOf] at hx
      · rcases mem_optLine.mp hx with ⟨v2, _, _, hv⟩
        simp [avgLineOf] at hv
      · rcases mem_optLine.mp hx with ⟨v2, _, _, hv⟩
        simp [avgLineOf] at hv
      · rcases mem_optLine.mp hx with ⟨v2, _, _, hv⟩
        simp [avgLineOf] at hv
      · exact avg_zero_no_optLine havg2 _ hx
      · rcases mem_goalLines.mp hx with ⟨grow, _, hg | hg | hg | hg⟩
        · rcases mem_weightGoalLine.mp hg with ⟨gv, av, _, _, _, _, hv⟩
          simp [avgLineOf] at hv
        · rcases mem_goalPctLine.mp hg with ⟨gv, av, _, _, _, _, hv⟩
          simp [avgLineOf] at hv
        · rcases mem_goalPctLine.mp hg with ⟨gv, av, _, _, _, _, hv⟩
          simp [avgLineOf] at hv
        · rcases mem_goalPctLine.mp hg with ⟨gv, av, _, _, _, _, hv⟩
          simp [avgLineOf] at hv
      · rcases mem_trendLines.mp hx with ⟨_, hv⟩
        simp [avgLineOf] at hv
      · rcases mem_bodyLines.mp hx with
          ⟨urow, hh, ww, aa, _, _, _, _, _, _, _, hv | hv⟩ <;>
          simp [avgLineOf] at hv

theorem zero_average_omits_line_witness :
    numeric_avg (rowsC10.map (metricValue Metric.steps)) = some 0 ∧
    avgLineOf Metric.steps 7 ∉ refresh_insights rowsC10 none none := by
  have havg : numeric_avg (rowsC10.map (metricValue Metric.steps)) = some 0 := by
    norm_num [rowsC10, numeric_avg, metricValue, List.filterMap_cons]
  exact ⟨havg,
    zero_average_omits_line Metric.steps rowsC10 none none havg (by decide) 7⟩

/-- C2 counterexample: submitting the quick-entry form with every numeric
field left blank (and a valid date) stores 0.0 in every field — the
`float(self.entry_x.get() or 0)` idiom at lines 502–517 turns an absent
input into the number 0, it does not store NULL — refuting "a field whose
input is absent is stored as null, never silently coerced to zero". -/
theorem blank_entry_stored_as_zero_counterexample :
    add_entry { date := "2025-01-01", sleep := "", weight := "",
                calories := "", steps := "" } =
      some { date := "2025-01-01", sleep_hrs := some 0, weight := some 0,
             calories := some 0, steps := some 0 } := by
  decide

/-- C2 amended: for every appended daily entry, a numeric field is stored
as NULL exactly when its input was non-empty but unparsable (`float`/`int`
raised); an empty (absent) field is silently coerced to 0 and stored as 0;
a successfully parsed value is stored as parsed. -/
theorem add_entry_field_semantics (date ss ws cs sts : String) (row : DailyRow)
    (hrow : add_entry
      { date := date, sleep := ss, weight := ws, calories := cs,
        steps := sts } = some row) :
    ((ss = "" → row.sleep_hrs = some 0) ∧
      (ss ≠ "" → row.sleep_hrs = pyFloat ss)) ∧
    ((ws = "" → row.weight = some 0) ∧
      (ws ≠ "" → row.weight = pyFloat ws)) ∧
    ((cs = "" → row.calories = some 0) ∧
      (cs ≠ "" → row.calories = pyFloat cs)) ∧
    ((sts = "" → row.steps = some 0) ∧
      (sts ≠ "" → row.steps = pyInt sts)) := by
  unfold add_entry at hrow
  split at hrow
  · have hr := (Option.some.injEq .. ).mp hrow
    subst hr
    refine ⟨⟨fun hss0 => ?_, fun hssn => ?_⟩, ⟨fun hws0 => ?_, fun hwsn => ?_⟩,
      ⟨fun hcs0 => ?_, fun hcsn => ?_⟩, ⟨fun hsts0 => ?_, fun hstsn => ?_⟩⟩
    · simp [parseFloatField, hss0]
    · simp [parseFloatField, hssn]
    · simp [parseFloatField, hws0]
    · simp [parseFloatField, hwsn]
    · simp [parseFloatField, hcs0]
    · simp [parseFloatField, hcsn]
    · simp [parseIntField, hsts0]
    · simp [parseIntField, hstsn]
  · exact absurd hrow (by simp)

theorem add_entry_field_semantics_witness :
    add_entry
      { date := "2025-01-01", sleep := "", weight := "abc", calories := "",
        steps := "2x" } =
      some { date := "2025-01-01", sleep_hrs := some 0, weight := none,
             calories := some 0, steps := none } ∧
    (some (0 : ℚ) = some 0 ∧ (none : Option ℚ) = pyFloat "abc") := by
  have h := add_entry_field_semantics "2025-01-01" "" "abc" "" "2x"
    { date := "2025-01-01", sleep_hrs := some 0, weight := none,
      calories := some 0, steps := none } (by decide)
  exact ⟨by decide, h.1.1 rfl, h.2.1.2 (by decide)⟩

/-- C8: `upsert_goals` has replace semantics — after any call, the user's
goals row holds exactly the four supplied values (an absent argument is
stored as NULL, clearing whatever was there, because the UPDATE at lines
149–150 writes all four columns unconditionally), and when no row existed
an INSERT appends one. -/
theorem upsert_goals_replace (tbl : List (String × GoalsRow))
    (username : String) (wg : Option ℚ) (sg : Option Int) (cg : Option ℚ)
    (slg : Option ℚ) :
    get_goals (upsert_goals tbl username wg sg cg slg) username =
      some ⟨wg, sg, cg, slg⟩ ∧
    (get_goals tbl username = none →
      upsert_goals tbl username wg sg cg slg =
        tbl ++ [(username, ⟨wg, sg, cg, slg⟩)]) := by
  constructor
  · by_cases hany : tbl.any (fun p => p.1 = username) = true
    · have key : ∀ t : List (String × GoalsRow),
          t.any (fun p => p.1 = username) = true →
          ∃ k, (t.map (fun p => if p.1 = username
              then (p.1, (⟨wg, sg, cg, slg⟩ : GoalsRow)) else p)).find?
            (fun p => p.1 = username) =
            some (k, (⟨wg, sg, cg, slg⟩ : GoalsRow)) := by
        intro t ht
        induction t with
        | nil => simp at ht
        | cons hd tl ih =>
          by_cases hk : hd.1 = username
          · exact ⟨hd.1, by simp [hk]⟩
          · simp only [List.any_cons, Bool.or_eq_true, decide_eq_true_eq]
              at ht
            rcases ht with ht | ht
            · exact absurd ht hk
            · rcases ih ht with ⟨k, hfind⟩
              exact ⟨k, by simp [hk, hfind]⟩
      rcases key tbl hany with ⟨k, hfind⟩
      unfold get_goals upsert_goals
      rw [if_pos hany, hfind]
      rfl
    · simp only [upsert_goals, hany, if_false]
      have hnone : tbl.find? (fun p => p.1 = username) = none := by
        rw [List.find?_eq_none]
        intro x hx
        simp only [decide_eq_true_eq]
        intro hx1
        have : tbl.any (fun p => p.1 = username) = true :=
          List.any_eq_true.mpr ⟨x, hx, by simp [hx1]⟩
        exact hany this
      simp [get_goals, List.find?_append, hnone]
  · intro hget
    have hnone : tbl.find? (fun p => p.1 = username) = none := by
      cases hf : tbl.find? (fun p => p.1 = username) with
      | none => rfl
      | some p =>
        simp [get_goals, hf] at hget
    have hany : tbl.any (fun p => p.1 = username) = false := by
      rw [List.any_eq_false]
      intro x hx
      have := List.find?_eq_none.mp hnone x hx
      simpa using this
    simp [upsert_goals, hany]

theorem upsert_goals_replace_witness :
    get_goals (upsert_goals [] "u" (some 60) (some 10000) none (some 8)) "u" =
      some ⟨some 60, some 10000, none, some 8⟩ ∧
    upsert_goals ([] : List (String × GoalsRow)) "u" (some 60) (some 10000)
        none (some 8) =
      [("u", ⟨some 60, some 10000, none, some 8⟩)] := by
  have h := upsert_goals_replace [] "u" (some 60) (some 10000) none (some 8)
  exact ⟨h.1, h.2 rfl⟩

end Fitness
